import Mathlib

/-!
Verification of the arbiter PostgreSQL connection proxy.

The development shallowly embeds the Go sources:
* the backend pool and its health-probe state machine (`pool/pool.go`);
* the PostgreSQL v3 wire codec (`messages.go`);
* the framed-connection close logic and the proxy session's startup and
  authentication phases (`arbiter.go`).

Machine integers (Go `int32`) are modelled as `Int` values obtained from raw
big-endian bytes via `toI32`; byte strings are `List Nat`.
-/

namespace Arbiter

/-! ## Backend pool (pool/pool.go)

`State` is the Go `State` enumeration (`UNAVAILABLE`, `READ_ONLY`,
`READ_WRITE`).  A `Member` models the mutable `member` struct monitored by
`Pool.monitor`: its current state, its last observed latency (`lat`), and a
counter of how many times `Fail()` has been invoked on its backend (the Go
code calls `m.b.Fail()`; the counter lets us state "Fail was called exactly
once").  A `PoolSt` is the pool's mutable state: the registered members (in
`Put` order, identified by their index), the `avail` list of member indices,
and the `primary` pointer. -/

inductive St
| unavailable
| readOnly
| readWrite
deriving DecidableEq

structure Member where
  state : St
  lat : Nat
  fails : Nat
deriving DecidableEq

structure PoolSt where
  members : List Member
  avail : List Nat
  primary : Option Nat
deriving DecidableEq

/-- The pool returned by `New()`: no members, empty `avail`, nil `primary`. -/
def poolInit : PoolSt := { members := [], avail := [], primary := none }

/-- Go zero value of `member`: state `UNAVAILABLE` (iota 0), latency 0. -/
def newMember : Member := { state := St.unavailable, lat := 0, fails := 0 }

/-- `Pool.Put`: append a fresh member; `avail` and `primary` are untouched. -/
def put (p : PoolSt) : PoolSt :=
  { p with members := p.members ++ [newMember] }

/-- Latency of member `i` as seen through the `avail` pointers. -/
def latOf (ms : List Member) (i : Nat) : Nat :=
  ((ms[i]?).map Member.lat).getD 0

inductive PoolErr
| noneAvailable
deriving DecidableEq

/-- `Pool.GetForRead`: the first entry of `avail`, or `ErrNoneAvailable`. -/
def getForRead (p : PoolSt) : Except PoolErr Nat :=
  match p.avail with
  | [] => .error .noneAvailable
  | j :: _ => .ok j

/-- `Pool.GetForWrite`: the `primary` pointer, or `ErrNoneAvailable`. -/
def getForWrite (p : PoolSt) : Except PoolErr Nat :=
  match p.primary with
  | none => .error .noneAvailable
  | some j => .ok j

/-- One probe tick's switch body in `Pool.monitor`, for a member whose current
state is `s`, given the probe result `res` (`none` models `err ≠ nil`; `some
ns` models `err = nil` with reported state `ns`).  Returns the new state, the
new `avail` list (before re-sorting), the new `primary`, and whether
`m.b.Fail()` was called on this tick.  The branches mirror the Go `switch`
cases in order; the final catch-all is the Go behaviour when no case matches
(no side effects, state still overwritten). -/
def tickCore (s : St) (res : Option St) (i : Nat) (avail : List Nat)
    (primary : Option Nat) : St × List Nat × Option Nat × Bool :=
  match res with
  | none =>
    if s = St.unavailable then
      (St.unavailable, avail, primary, false)
    else
      (St.unavailable, avail.filter (fun j => j ≠ i),
        (if s = St.readWrite then none else primary), true)
  | some ns =>
    if s = ns then
      (ns, avail, primary, false)
    else if s = St.unavailable then
      (ns, avail ++ [i], (if ns = St.readWrite then some i else primary), false)
    else if s = St.readWrite ∧ ns = St.readOnly then
      (ns, avail, none, true)
    else if s = St.readOnly ∧ ns = St.readWrite then
      (ns, avail, some i, false)
    else
      (ns, avail, primary, false)

/-- A full probe tick of `Pool.monitor` for member `i` with measured latency
`lat`.  After the switch, the member's state and latency are overwritten and
`avail` is re-sorted by `sort.Sort(byLatency(p.avail))`; the sorting routine
is a parameter `f` so that theorems can be stated against the documented
contract of `sort.Sort` (a latency-sorted permutation, stability not
guaranteed). -/
def tick (f : (Nat → Nat) → List Nat → List Nat) (p : PoolSt) (i : Nat)
    (res : Option St) (lat : Nat) : PoolSt :=
  match p.members[i]? with
  | none => p
  | some m =>
    let r := tickCore m.state res i p.avail p.primary
    let ms2 := p.members.set i
      { state := r.1, lat := lat, fails := m.fails + (if r.2.2.2 then 1 else 0) }
    { members := ms2, avail := f (latOf ms2) r.2.1, primary := r.2.2.1 }

/-- The contract of `sort.Sort(byLatency l)` with `Less i j = lat i < lat j`:
the result is a permutation of the input, sorted so that latencies are
non-decreasing.  `sort.Sort` promises nothing more (in particular it is not
guaranteed to be stable). -/
def SortSpec (f : (Nat → Nat) → List Nat → List Nat) : Prop :=
  ∀ (g : Nat → Nat) (l : List Nat),
    (f g l).Perm l ∧ (f g l).Sorted (fun a b => g a ≤ g b)

/-- A concrete sorting routine satisfying `SortSpec`: insertion sort. -/
def insSortBy (g : Nat → Nat) (l : List Nat) : List Nat :=
  List.insertionSort (fun a b => g a ≤ g b) l

/-- A second conforming sorting routine: insertion sort of the reversed
input.  Also satisfies `SortSpec`, but reverses the relative order of
equal-latency entries. -/
def revTieSortBy (g : Nat → Nat) (l : List Nat) : List Nat :=
  List.insertionSort (fun a b => g a ≤ g b) l.reverse

/-- States reachable from the fresh pool by `Put` and probe ticks.  A probe's
result space is that of `pg.Ping`: an error, or a reported state of
`READ_ONLY`/`READ_WRITE` (`pg.Ping` never returns `(UNAVAILABLE, nil)`).
Each tick may use any sorting routine satisfying the `sort.Sort` contract. -/
inductive Reach : PoolSt → Prop
| init : Reach poolInit
| put {p : PoolSt} : Reach p → Reach (put p)
| tickErr {p : PoolSt} (f : (Nat → Nat) → List Nat → List Nat)
    (hf : SortSpec f) (i lat : Nat) : Reach p → Reach (tick f p i none lat)
| tickOk {p : PoolSt} (f : (Nat → Nat) → List Nat → List Nat)
    (hf : SortSpec f) (i lat : Nat) (s : St) (hs : s ≠ St.unavailable) :
    Reach p → Reach (tick f p i (some s) lat)

/-- Count of members currently in state `READ_WRITE`. -/
def rwCount (p : PoolSt) : Nat :=
  (p.members.filter fun m => m.state == St.readWrite).length

/-! ## Wire codec (messages.go)

Bytes are `Nat` values; byte strings are `List Nat`.  Go `int32` values are
`Int`s obtained by reinterpreting four big-endian bytes through `toI32`. -/

abbrev Bytes := List Nat

/-- Reinterpret a natural number as a two's-complement 32-bit integer. -/
def toI32 (n : Nat) : Int :=
  if n % 4294967296 < 2147483648 then ((n % 4294967296 : Nat) : Int)
  else ((n % 4294967296 : Nat) : Int) - 4294967296

/-- Big-endian value of four bytes. -/
def beNat (b0 b1 b2 b3 : Nat) : Nat :=
  ((b0 * 256 + b1) * 256 + b2) * 256 + b3

/-- `int32bytes`: big-endian encoding of the low 32 bits of an `int32`. -/
def int32bytesI (n : Int) : Bytes :=
  let m := (n.emod 4294967296).toNat
  [m / 16777216 % 256, m / 65536 % 256, m / 256 % 256, m % 256]

/-- Error values of the codec.  `ioError` stands for any I/O failure from the
underlying reader (EOF, unexpected EOF); the other three are the named error
variables `ErrProtocolViolation`, `ErrUnknownMessage` and
`ErrUnsupportedAuthenticationRequest`. -/
inductive DecErr
| protocolViolation
| unknownMessage
| unsupportedAuthenticationRequest
| ioError
deriving DecidableEq

/-- Outcome of running a decoding step on a byte stream: a value plus the
rest of the stream, an error return, or a Go runtime panic. -/
inductive DecRes (α : Type)
| ok (a : α) (rest : Bytes)
| err (e : DecErr)
| panicked
deriving DecidableEq

/-- `readInt32`: `binary.Read` of a big-endian `int32`. -/
def readInt32 : Bytes → DecRes Int
  | b0 :: b1 :: b2 :: b3 :: rest => .ok (toI32 (beNat b0 b1 b2 b3)) rest
  | _ => .err .ioError

/-- `readMessage`: read the `int32` length prefix, then
`make([]byte, msglen-4)` followed by `io.ReadFull`.  `msglen - 4` is
computed in `int32` arithmetic; when it is negative, `make` panics at
runtime ("makeslice: len out of range"). -/
def readMessage (input : Bytes) : DecRes Bytes :=
  match readInt32 input with
  | .ok msglen rest =>
    let d := toI32 ((msglen - 4).emod 4294967296).toNat
    if d < 0 then .panicked
    else if rest.length < d.toNat then .err .ioError
    else .ok (rest.take d.toNat) (rest.drop d.toNat)
  | .err e => .err e
  | .panicked => .panicked

/-- The tagged PostgreSQL v3 message universe of messages.go.  Fields mirror
the Go structs; message types the proxy does not inspect carry their raw
body. -/
inductive Msg
| bind (raw : Bytes)
| close (raw : Bytes)
| describe (raw : Bytes)
| execute (raw : Bytes)
| functionCall (raw : Bytes)
| flush (raw : Bytes)
| parse (raw : Bytes)
| query (raw : Bytes)
| sync
| terminate
| copyDone
| copyData (raw : Bytes)
| copyFail (raw : Bytes)
| passwordMessage (p : Bytes)
| notificationResponse (raw : Bytes)
| commandComplete (raw : Bytes)
| dataRow (raw : Bytes)
| errorResponse (fields : List (Nat × Bytes))
| functionCallResponse (raw : Bytes)
| copyInResponse (raw : Bytes)
| copyOutResponse (raw : Bytes)
| emptyQueryResponse
| backendKeyData (pid secret : Int)
| noticeResponse (raw : Bytes)
| authenticationRequest (ty : Int) (salt : Bytes)
| parameterStatus (name value : Bytes)
| rowDescription (raw : Bytes)
| copyBothResponse (raw : Bytes)
| readyForQuery (status : Nat)
| noData (raw : Bytes)
| portalSuspended (raw : Bytes)
| parameterDescription (raw : Bytes)
| parseComplete (raw : Bytes)
| bindComplete (raw : Bytes)
| closeComplete (raw : Bytes)
deriving DecidableEq

/-- Decoder for the body-as-raw-bytes messages (`_, *m, err = readMessage(r)`). -/
def decodeRaw (mk : Bytes → Msg) (input : Bytes) : DecRes Msg :=
  match readMessage input with
  | .ok body rest => .ok (mk body) rest
  | .err e => .err e
  | .panicked => .panicked

/-- Decoder for the fixed empty-body messages (`Sync`, `Terminate`,
`CopyDone`, `EmptyQueryResponse`): read the length, require it to be 4. -/
def decodeLen4 (m : Msg) (input : Bytes) : DecRes Msg :=
  match readInt32 input with
  | .ok n rest => if n = 4 then .ok m rest else .err .protocolViolation
  | .err e => .err e
  | .panicked => .panicked

/-- `ReadyForQuery.DecodeFrom`: `readMessage`, length must be 5, status is
the last body byte. -/
def decodeReadyForQuery (input : Bytes) : DecRes Msg :=
  match readMessage input with
  | .ok body rest =>
    match body with
    | [s] => .ok (.readyForQuery s) rest
    | _ => .err .protocolViolation
  | .err e => .err e
  | .panicked => .panicked

/-- `ParameterStatus.DecodeFrom`: body split at the first NUL; the name keeps
its trailing NUL, the value is the remainder.  A missing NUL is a
`ErrProtocolViolation`. -/
def decodeParameterStatus (input : Bytes) : DecRes Msg :=
  match readMessage input with
  | .ok body rest =>
    match body.findIdx? (fun b => b = 0) with
    | none => .err .protocolViolation
    | some i => .ok (.parameterStatus (body.take (i + 1)) (body.drop (i + 1))) rest
  | .err e => .err e
  | .panicked => .panicked

/-- `BackendKeyData.DecodeFrom`: length must be 12, then two `int32`s. -/
def decodeBackendKeyData (input : Bytes) : DecRes Msg :=
  match readInt32 input with
  | .ok n rest =>
    if n ≠ 12 then .err .protocolViolation
    else
      match readInt32 rest with
      | .ok pid rest2 =>
        match readInt32 rest2 with
        | .ok secret rest3 => .ok (.backendKeyData pid secret) rest3
        | .err e => .err e
        | .panicked => .panicked
      | .err e => .err e
      | .panicked => .panicked
  | .err e => .err e
  | .panicked => .panicked

/-- The field loop of `ErrorResponse.DecodeFrom`: split the body on NUL; a
piece shorter than 2 bytes stops the loop, every other piece contributes the
pair (field code byte, value bytes).  The Go `map[byte]string` is modelled as
the association list of assignments in loop order. -/
def erFields : List Bytes → List (Nat × Bytes)
  | [] => []
  | item :: rest =>
    if item.length < 2 then []
    else
      match item with
      | [] => []
      | k :: v => (k, v) :: erFields rest

/-- `ErrorResponse.DecodeFrom`. -/
def decodeErrorResponse (input : Bytes) : DecRes Msg :=
  match readMessage input with
  | .ok body rest => .ok (.errorResponse (erFields (body.splitOn 0))) rest
  | .err e => .err e
  | .panicked => .panicked

/-- `ErrorResponse.Code()`: the value stored under field code `'C'` (the Go
map keeps the last assignment for a key; absent keys read as `""`). -/
def erCode (fields : List (Nat × Bytes)) : Bytes :=
  match (fields.reverse).find? (fun kv => kv.1 = 67) with
  | some kv => kv.2
  | none => []

/-- `AuthenticationRequest.DecodeFrom`: length at least 8, then the subtype;
subtypes 0 and 3 require length 8, subtype 5 requires length 12 and carries
a 4-byte salt; anything else is `ErrUnsupportedAuthenticationRequest`. -/
def decodeAuthenticationRequest (input : Bytes) : DecRes Msg :=
  match readInt32 input with
  | .ok msglen rest =>
    if msglen < 8 then .err .protocolViolation
    else
      match readInt32 rest with
      | .ok t rest2 =>
        if t = 0 ∧ msglen = 8 then .ok (.authenticationRequest t []) rest2
        else if t = 3 ∧ msglen = 8 then .ok (.authenticationRequest t []) rest2
        else if t = 5 ∧ msglen = 12 then
          if rest2.length < 4 then .err .ioError
          else .ok (.authenticationRequest t (rest2.take 4)) (rest2.drop 4)
        else .err .unsupportedAuthenticationRequest
      | .err e => .err e
      | .panicked => .panicked
  | .err e => .err e
  | .panicked => .panicked

/-- `frontendMessageBuilder` followed by `DecodeFrom`: reads the tag byte,
selects the message for the frontend vocabulary
`{B,C,D,E,F,H,P,Q,S,X,c,d,f,p}`, and decodes its body.  An unknown tag is
`ErrUnknownMessage`. -/
def frontendDecode (input : Bytes) : DecRes Msg :=
  match input with
  | [] => .err .ioError
  | t :: rest =>
    if t = 66 then decodeRaw .bind rest
    else if t = 67 then decodeRaw .close rest
    else if t = 68 then decodeRaw .describe rest
    else if t = 69 then decodeRaw .execute rest
    else if t = 70 then decodeRaw .functionCall rest
    else if t = 72 then decodeRaw .flush rest
    else if t = 80 then decodeRaw .parse rest
    else if t = 81 then decodeRaw .query rest
    else if t = 83 then decodeLen4 .sync rest
    else if t = 88 then decodeLen4 .terminate rest
    else if t = 99 then decodeLen4 .copyDone rest
    else if t = 100 then decodeRaw .copyData rest
    else if t = 102 then decodeRaw .copyFail rest
    else if t = 112 then decodeRaw .passwordMessage rest
    else .err .unknownMessage

/-- `backendMessageBuilder` followed by `DecodeFrom`, for the backend
vocabulary `{A,C,D,E,F,G,H,I,K,N,R,S,T,W,Z,c,d,n,s,t,1,2,3}`. -/
def backendDecode (input : Bytes) : DecRes Msg :=
  match input with
  | [] => .err .ioError
  | t :: rest =>
    if t = 65 then decodeRaw .notificationResponse rest
    else if t = 67 then decodeRaw .commandComplete rest
    else if t = 68 then decodeRaw .dataRow rest
    else if t = 69 then decodeErrorResponse rest
    else if t = 70 then decodeRaw .functionCallResponse rest
    else if t = 71 then decodeRaw .copyInResponse rest
    else if t = 72 then decodeRaw .copyOutResponse rest
    else if t = 73 then decodeLen4 .emptyQueryResponse rest
    else if t = 75 then decodeBackendKeyData rest
    else if t = 78 then decodeRaw .noticeResponse rest
    else if t = 82 then decodeAuthenticationRequest rest
    else if t = 83 then decodeParameterStatus rest
    else if t = 84 then decodeRaw .rowDescription rest
    else if t = 87 then decodeRaw .copyBothResponse rest
    else if t = 90 then decodeReadyForQuery rest
    else if t = 99 then decodeLen4 .copyDone rest
    else if t = 100 then decodeRaw .copyData rest
    else if t = 110 then decodeRaw .noData rest
    else if t = 115 then decodeRaw .portalSuspended rest
    else if t = 116 then decodeRaw .parameterDescription rest
    else if t = 49 then decodeRaw .parseComplete rest
    else if t = 50 then decodeRaw .bindComplete rest
    else if t = 51 then decodeRaw .closeComplete rest
    else .err .unknownMessage

/-- `writeMessage`: the tag byte, then `4 +` the total field length as a
big-endian `int32`, then the field bytes. -/
def writeMessage (tag : Nat) (fields : List Bytes) : Bytes :=
  tag :: (int32bytesI (4 + (fields.map List.length).sum) ++ fields.flatten)

/-- The `EncodeTo` methods of messages.go, message by message.  The tag bytes
are exactly those of the source, including `CopyFail` emitting `'P'` (80),
`FunctionCallResponse` emitting `'V'` (86) and `CopyBothResponse` emitting
`'w'` (119).  `AuthenticationRequest.EncodeTo` rejects unsupported subtypes. -/
def encodeMsg : Msg → Except DecErr Bytes
  | .bind raw => .ok (writeMessage 66 [raw])
  | .close raw => .ok (writeMessage 67 [raw])
  | .describe raw => .ok (writeMessage 68 [raw])
  | .execute raw => .ok (writeMessage 69 [raw])
  | .functionCall raw => .ok (writeMessage 70 [raw])
  | .flush raw => .ok (writeMessage 72 [raw])
  | .parse raw => .ok (writeMessage 80 [raw])
  | .query raw => .ok (writeMessage 81 [raw])
  | .sync => .ok (writeMessage 83 [])
  | .terminate => .ok (writeMessage 88 [])
  | .copyDone => .ok (writeMessage 99 [])
  | .copyData raw => .ok (writeMessage 100 [raw])
  | .copyFail raw => .ok (writeMessage 80 [raw])
  | .passwordMessage p => .ok (writeMessage 112 [p])
  | .notificationResponse raw => .ok (writeMessage 65 [raw])
  | .commandComplete raw => .ok (writeMessage 67 [raw])
  | .dataRow raw => .ok (writeMessage 68 [raw])
  | .errorResponse fields =>
    .ok (writeMessage 69 [(fields.map fun kv => kv.1 :: kv.2 ++ [0]).flatten ++ [0]])
  | .functionCallResponse raw => .ok (writeMessage 86 [raw])
  | .copyInResponse raw => .ok (writeMessage 71 [raw])
  | .copyOutResponse raw => .ok (writeMessage 72 [raw])
  | .emptyQueryResponse => .ok (writeMessage 73 [])
  | .backendKeyData pid secret =>
    .ok (writeMessage 75 [int32bytesI pid, int32bytesI secret])
  | .noticeResponse raw => .ok (writeMessage 78 [raw])
  | .authenticationRequest t salt =>
    if t = 0 ∨ t = 3 then .ok (writeMessage 82 [int32bytesI t])
    else if t = 5 then .ok (writeMessage 82 [int32bytesI t, salt])
    else .error .unsupportedAuthenticationRequest
  | .parameterStatus name value => .ok (writeMessage 83 [name, value])
  | .rowDescription raw => .ok (writeMessage 84 [raw])
  | .copyBothResponse raw => .ok (writeMessage 119 [raw])
  | .readyForQuery s => .ok (writeMessage 90 [[s]])
  | .noData raw => .ok (writeMessage 110 [raw])
  | .portalSuspended raw => .ok (writeMessage 115 [raw])
  | .parameterDescription raw => .ok (writeMessage 116 [raw])
  | .parseComplete raw => .ok (writeMessage 49 [raw])
  | .bindComplete raw => .ok (writeMessage 50 [raw])
  | .closeComplete raw => .ok (writeMessage 51 [raw])

/-! ## Framed connection close (arbiter.go, `connection.Close` / `NewConnection`)

`connection.Close` runs `c.conn.Close(); c.cw <- true; c.wg.Wait()`.  The
control channel `cw` is created unbuffered (`make(chan bool)`); the writer
task's `select` loop, upon receiving from `cw`, executes `close(c.cw)` and
returns.  The writer's error exit path (`setError` then `return`) leaves
`cw` open with no receiver.  Go channel semantics make the model exact here:
a send on a closed channel panics, and a send on an open unbuffered channel
with no receiver blocks forever. -/

inductive ChanSt
| opened
| closed
deriving DecidableEq

structure ConnSt where
  cw : ChanSt
  writerRunning : Bool
  socketClosed : Bool
deriving DecidableEq

/-- A freshly built connection: `cw` open, writer task in its select loop. -/
def connInit : ConnSt :=
  { cw := .opened, writerRunning := true, socketClosed := false }

inductive CloseOutcome
| ok (s : ConnSt)
| panicked
| blocked
deriving DecidableEq

/-- `connection.Close`.  If `cw` was already closed (a previous `Close`
completed), the send `c.cw <- true` panics.  If the writer is still running,
it receives, closes `cw`, and exits, so `Close` returns.  If the writer has
already exited through its error path (without closing `cw`), the unbuffered
send has no receiver and `Close` blocks forever. -/
def connClose (s : ConnSt) : CloseOutcome :=
  match s.cw, s.writerRunning with
  | .closed, _ => .panicked
  | .opened, true =>
    .ok { cw := .closed, writerRunning := false, socketClosed := true }
  | .opened, false => .blocked

/-- The connection state after one successful `Close` of `connInit`. -/
def connClosed : ConnSt :=
  { cw := .closed, writerRunning := false, socketClosed := true }

/-- A connection whose writer task exited through its error path. -/
def connWriterGone : ConnSt :=
  { cw := .opened, writerRunning := false, socketClosed := false }

/-! ## Startup phase (arbiter.go, `handleClientConnection` lines 196-228)

The handler decodes up to two start frames (`for i := 0; i < 2; i++`).  A
frame is inspected only through `MajorVersion()`/`MinorVersion()` of its
32-bit version word, so the model carries the list of version words of the
successive well-formed start frames the client sends.  `SSLRequest` decodes
to major 1234, minor 5679; a v3.0 `Startup` to major 3, minor 0. -/

/-- `StartupMessage.MajorVersion`: arithmetic right shift of the `int32` by
16 bits. -/
def majorVersion (v : Int) : Int := Int.fdiv v 65536

/-- `StartupMessage.MinorVersion`: the low 16 bits. -/
def minorVersion (v : Int) : Int := Int.emod v 65536

inductive StartupOutcome
| proceed (version : Int) (nWritten : Nat)
| unsupported (nWritten : Nat)
| readFailed (nWritten : Nat)
deriving DecidableEq

/-- The startup loop.  `fuel` is the remaining loop iterations (2 at entry),
`lastMsg` the most recently decoded frame's version, `w` the number of `'N'`
bytes written so far.  On an SSL-version frame the handler writes one `'N'`
and continues; on a 3.0 frame it breaks out and proceeds; on any other
version it logs "Unsupported protocol" and returns.  When the loop bound is
exhausted the handler falls through and proceeds with the last decoded
frame. -/
def startupLoop : Nat → List Int → Option Int → Nat → StartupOutcome
  | 0, _, some v, w => .proceed v w
  | 0, _, none, w => .readFailed w
  | n + 1, frames, _, w =>
    match frames with
    | [] => .readFailed w
    | v :: rest =>
      if majorVersion v = 1234 ∧ minorVersion v = 5679 then
        startupLoop n rest (some v) (w + 1)
      else if majorVersion v = 3 ∧ minorVersion v = 0 then .proceed v w
      else .unsupported w

/-- The whole startup phase over the client's stream of start frames. -/
def startupPhase (frames : List Int) : StartupOutcome :=
  startupLoop 2 frames none 0

/-- Version word of an `SSLRequest` start frame. -/
def sslRequestVersion : Int := 80877103

/-- Version word of a protocol-3.0 `Startup` frame. -/
def startup30Version : Int := 196608

/-! ## Authentication phase of arbiter.go (`handleClientConnection` lines
246-292)

The loop selects between the backend's and the frontend's inbound channels.
A backend `ErrorResponse` or `AuthenticationRequest` is forwarded to the
frontend (an `AuthenticationRequest` of subtype Ok additionally finishes
authentication); a frontend `PasswordMessage` is forwarded to the backend;
every other message is dropped on the floor. -/

inductive Side
| frontend
| backend
deriving DecidableEq

def Msg.isPasswordMessage : Msg → Bool
  | .passwordMessage _ => true
  | _ => false

def Msg.isAuthenticationRequest : Msg → Bool
  | .authenticationRequest _ _ => true
  | _ => false

def Msg.isErrorResponse : Msg → Bool
  | .errorResponse _ => true
  | _ => false

/-- One iteration of the authentication-phase select loop: given the current
`authenticated` flag, the side the message arrived from and the message,
return the (destination, message) forwarded — if any — and the new flag. -/
def authPhaseStep (authenticated : Bool) : Side → Msg → Option (Side × Msg) × Bool
  | .backend, m =>
    match m with
    | .errorResponse fs => (some (.frontend, .errorResponse fs), authenticated)
    | .authenticationRequest t salt =>
      (some (.frontend, .authenticationRequest t salt),
        if t = 0 then true else authenticated)
    | _ => (none, authenticated)
  | .frontend, m =>
    match m with
    | .passwordMessage p => (some (.backend, .passwordMessage p), authenticated)
    | _ => (none, authenticated)

/-! ## Concrete pool states used by the claim theorems -/

/-- Two backends registered, then both probed healthy with `READ_WRITE`:
a split-brain report.  Latencies 1 and 2. -/
def c2state : PoolSt :=
  tick insSortBy (tick insSortBy (put (put poolInit)) 0 (some .readWrite) 1)
    1 (some .readWrite) 2

/-- One backend registered and probed `READ_WRITE` with latency 1. -/
def c2wpool : PoolSt := tick insSortBy (put poolInit) 0 (some .readWrite) 1

/-- Two backends probed `READ_ONLY` with latencies 7 and 4. -/
def c1pool : PoolSt :=
  tick insSortBy (tick insSortBy (put (put poolInit)) 0 (some .readOnly) 7)
    1 (some .readOnly) 4

/-- One backend registered and probed `READ_WRITE` with latency 2. -/
def c3pool : PoolSt := tick insSortBy (put poolInit) 0 (some .readWrite) 2

/-- Two backends probed `READ_ONLY` with the same latency 5, re-sorted with
the conforming-but-not-stable routine `revTieSortBy`. -/
def c7state : PoolSt :=
  tick revTieSortBy (tick revTieSortBy (put (put poolInit)) 0 (some .readOnly) 5)
    1 (some .readOnly) 5

/-- Two backends probed `READ_ONLY` with latencies 9 and 2. -/
def c7wpool : PoolSt :=
  tick insSortBy (tick insSortBy (put (put poolInit)) 0 (some .readOnly) 9)
    1 (some .readOnly) 2

/-! ## Helper lemmas -/

theorem insertionSort_sorted (g : Nat → Nat) (l : List Nat) :
    (List.insertionSort (fun a b => g a ≤ g b) l).Sorted (fun a b => g a ≤ g b) := by
  haveI : IsTotal Nat (fun a b => g a ≤ g b) := ⟨fun a b => Nat.le_total (g a) (g b)⟩
  haveI : IsTrans Nat (fun a b => g a ≤ g b) := ⟨fun a b c hab hbc => le_trans hab hbc⟩
  exact List.sorted_insertionSort _ l

theorem insSortBy_spec : SortSpec insSortBy := by
  intro g l
  exact ⟨List.perm_insertionSort _ l, insertionSort_sorted g l⟩

theorem revTieSortBy_spec : SortSpec revTieSortBy := by
  intro g l
  refine ⟨?_, insertionSort_sorted g l.reverse⟩
  exact (List.perm_insertionSort _ l.reverse).trans l.reverse_perm

theorem getElem?_some_lt {α : Type} {l : List α} {i : Nat} {a : α}
    (h : l[i]? = some a) : i < l.length := by
  by_contra hc
  push_neg at hc
  rw [List.getElem?_eq_none hc] at h
  exact Option.noConfusion h

/-- The pool invariant maintained by every `Put` and probe tick: `avail`
holds valid member indices, `avail` is sorted by current latency, and a
non-null `primary` references a member in state `READ_WRITE`. -/
def PoolInv (p : PoolSt) : Prop :=
  (∀ j ∈ p.avail, j < p.members.length) ∧
  p.avail.Sorted (fun a b => latOf p.members a ≤ latOf p.members b) ∧
  (∀ i, p.primary = some i → ∃ m, p.members[i]? = some m ∧ m.state = St.readWrite)

theorem put_inv {p : PoolSt} (h : PoolInv p) : PoolInv (put p) := by
  obtain ⟨hb, hs, hp⟩ := h
  refine ⟨?_, ?_, ?_⟩
  · intro j hj
    simp only [put, List.length_append]
    exact Nat.lt_of_lt_of_le (hb j hj) (Nat.le_add_right _ _)
  · apply hs.imp_of_mem
    intro a b ha hb2 hab
    have hlat : ∀ c ∈ p.avail, latOf (put p).members c = latOf p.members c := by
      intro c hc
      simp only [put, latOf, List.getElem?_append_left (hb c hc)]
    rw [hlat a ha, hlat b hb2]
    exact hab
  · intro i hi
    obtain ⟨m, hm, hmr⟩ := hp i hi
    refine ⟨m, ?_, hmr⟩
    simp only [put, List.getElem?_append_left (getElem?_some_lt hm)]
    exact hm

theorem tick_inv (f : (Nat → Nat) → List Nat → List Nat) (hf : SortSpec f)
    (p : PoolSt) (i lat : Nat) (res : Option St)
    (hres : res ≠ some St.unavailable) (h : PoolInv p) :
    PoolInv (tick f p i res lat) := by
  obtain ⟨hb, hs, hp⟩ := h
  unfold tick
  cases hm : p.members[i]? with
  | none => exact ⟨hb, hs, hp⟩
  | some m =>
    have hi : i < p.members.length := getElem?_some_lt hm
    simp only []
    set st2 := (tickCore m.state res i p.avail p.primary).1 with hst2
    set av1 := (tickCore m.state res i p.avail p.primary).2.1 with hav1
    set pr1 := (tickCore m.state res i p.avail p.primary).2.2.1 with hpr1
    set didFail := (tickCore m.state res i p.avail p.primary).2.2.2 with hdf
    set m2 : Member :=
      { state := st2, lat := lat, fails := m.fails + (if didFail then 1 else 0) } with hm2
    set ms2 := p.members.set i m2 with hms2
    have hlen : ms2.length = p.members.length := by
      simp [hms2, List.length_set]
    have hmem1 : ∀ j ∈ av1, j < p.members.length := by
      intro j hj
      rcases res with _ | ns
      · by_cases hu : m.state = St.unavailable
        · simp only [hav1, tickCore, hu, if_pos rfl] at hj
          simp [hu] at hj
          exact hb j hj
        · simp only [hav1, tickCore, if_neg hu] at hj
          exact hb j (List.mem_filter.mp hj).1
      · by_cases he : m.state = ns
        · simp only [hav1, tickCore, if_pos he] at hj
          exact hb j hj
        · by_cases hu : m.state = St.unavailable
          · simp only [hav1, tickCore, if_neg he, if_pos hu] at hj
            rcases List.mem_append.mp hj with hj1 | hj2
            · exact hb j hj1
            · simp at hj2
              exact hj2 ▸ hi
          · by_cases h5 : m.state = St.readWrite ∧ ns = St.readOnly
            · simp only [hav1, tickCore, if_neg he, if_neg hu, if_pos h5] at hj
              exact hb j hj
            · by_cases h6 : m.state = St.readOnly ∧ ns = St.readWrite
              · simp only [hav1, tickCore, if_neg he, if_neg hu, if_neg h5, if_pos h6] at hj
                exact hb j hj
              · simp only [hav1, tickCore, if_neg he, if_neg hu, if_neg h5, if_neg h6] at hj
                exact hb j hj
    refine ⟨?_, ?_, ?_⟩
    · intro j hj
      have hj1 : j ∈ av1 := ((hf (latOf ms2) av1).1.mem_iff).mp hj
      rw [hlen]
      exact hmem1 j hj1
    · exact (hf (latOf ms2) av1).2
    · intro j hj
      -- analyze the primary produced by each branch of the switch
      rcases res with _ | ns
      · by_cases hu : m.state = St.unavailable
        · simp only [hpr1, tickCore, if_pos hu] at hj
          obtain ⟨m', hm', hr'⟩ := hp j hj
          by_cases hij : i = j
          · subst hij
            rw [hm] at hm'
            cases hm'
            exact absurd hu (by rw [hr']; intro hco; cases hco)
          · refine ⟨m', ?_, hr'⟩
            rw [hms2, List.getElem?_set_ne hij]
            exact hm'
        · simp only [hpr1, tickCore, if_neg hu] at hj
          by_cases hrw : m.state = St.readWrite
          · simp [hrw] at hj
          · simp only [if_neg hrw] at hj
            obtain ⟨m', hm', hr'⟩ := hp j hj
            by_cases hij : i = j
            · subst hij
              rw [hm] at hm'
              cases hm'
              exact absurd hr' hrw
            · refine ⟨m', ?_, hr'⟩
              rw [hms2, List.getElem?_set_ne hij]
              exact hm'
      · by_cases he : m.state = ns
        · simp only [hpr1, tickCore, if_pos he] at hj
          obtain ⟨m', hm', hr'⟩ := hp j hj
          by_cases hij : i = j
          · subst hij
            rw [hm] at hm'
            cases hm'
            refine ⟨m2, ?_, ?_⟩
            · rw [hms2, List.getElem?_set_self hi]
            · simp [hm2, hst2, tickCore, if_pos he, ← he, hr']
          · refine ⟨m', ?_, hr'⟩
            rw [hms2, List.getElem?_set_ne hij]
            exact hm'
        · by_cases hu : m.state = St.unavailable
          · simp only [hpr1, tickCore, if_neg he, if_pos hu] at hj
            by_cases hrw : ns = St.readWrite
            · simp only [if_pos hrw] at hj
              cases hj
              refine ⟨m2, ?_, ?_⟩
              · rw [hms2, List.getElem?_set_self hi]
              · simp [hm2, hst2, tickCore, he, hu, hrw]
            · simp only [if_neg hrw] at hj
              obtain ⟨m', hm', hr'⟩ := hp j hj
              by_cases hij : i = j
              · subst hij
                rw [hm] at hm'
                cases hm'
                rw [hr'] at hu
                cases hu
              · refine ⟨m', ?_, hr'⟩
                rw [hms2, List.getElem?_set_ne hij]
                exact hm'
          · by_cases h5 : m.state = St.readWrite ∧ ns = St.readOnly
            · simp only [hpr1, tickCore, if_neg he, if_neg hu, if_pos h5] at hj
              cases hj
            · by_cases h6 : m.state = St.readOnly ∧ ns = St.readWrite
              · simp only [hpr1, tickCore, if_neg he, if_neg hu, if_neg h5, if_pos h6] at hj
                cases hj
                refine ⟨m2, ?_, ?_⟩
                · rw [hms2, List.getElem?_set_self hi]
                · simp [hm2, hst2, tickCore, he, hu, h5, h6.1, h6.2]
              · -- the catch-all branch is unreachable for probe results RO/RW
                exfalso
                cases hns : ns with
                | unavailable => exact hres (by rw [hns])
                | readOnly =>
                  cases hms : m.state with
                  | unavailable => exact hu hms
                  | readOnly => exact he (by rw [hms, hns])
                  | readWrite => exact h5 ⟨hms, hns⟩
                | readWrite =>
                  cases hms : m.state with
                  | unavailable => exact hu hms
                  | readOnly => exact h6 ⟨hms, hns⟩
                  | readWrite => exact he (by rw [hms, hns])

theorem reach_inv {p : PoolSt} (hp : Reach p) : PoolInv p := by
  induction hp with
  | init =>
    refine ⟨?_, ?_, ?_⟩
    · intro j hj
      cases hj
    · exact List.sorted_nil
    · intro i hi
      cases hi
  | put _ ih => exact put_inv ih
  | tickErr f hf i lat _ ih =>
    exact tick_inv f hf _ i lat none (by intro hco; cases hco) ih
  | tickOk f hf i lat s hs _ ih =>
    exact tick_inv f hf _ i lat (some s)
      (by intro hco; exact hs (Option.some.inj hco)) ih

/-! ## Claim theorems -/

/-- C1: in every reachable pool state, `GetForRead` returns the first member
of the latency-sorted `avail` list — a lowest-latency available backend —
and returns `ErrNoneAvailable` exactly when `avail` is empty; `GetForWrite`
returns the member referenced by the `primary` pointer and returns
`ErrNoneAvailable` exactly when `primary` is nil. -/
theorem c1_get_for_read_write (p : PoolSt) (hp : Reach p) :
    (getForRead p = .error .noneAvailable ↔ p.avail = []) ∧
    (∀ i rest, p.avail = i :: rest → getForRead p = .ok i) ∧
    (∀ i, getForRead p = .ok i →
      i ∈ p.avail ∧ ∀ j ∈ p.avail, latOf p.members i ≤ latOf p.members j) ∧
    (getForWrite p = .error .noneAvailable ↔ p.primary = none) ∧
    (∀ i, p.primary = some i → getForWrite p = .ok i) := by
  obtain ⟨hb, hs, hpv⟩ := reach_inv hp
  refine ⟨?_, ?_, ?_, ?_, ?_⟩
  · cases ha : p.avail with
    | nil => simp [getForRead, ha]
    | cons x xs => simp [getForRead, ha]
  · intro i rest ha
    simp [getForRead, ha]
  · intro i hgi
    cases ha : p.avail with
    | nil =>
      rw [getForRead, ha] at hgi
      cases hgi
    | cons x xs =>
      rw [getForRead, ha] at hgi
      cases hgi
      rw [ha] at hs
      have hcons := List.sorted_cons.mp hs
      constructor
      · exact List.mem_cons_self i xs
      · intro j hj
        rcases List.mem_cons.mp hj with hj1 | hj2
        · rw [hj1]
        · exact hcons.1 j hj2
  · cases hpr : p.primary with
    | none => simp [getForWrite, hpr]
    | some x => simp [getForWrite, hpr]
  · intro i hi
    simp [getForWrite, hi]

theorem c1pool_reach : Reach c1pool :=
  Reach.tickOk insSortBy insSortBy_spec 1 4 .readOnly (by decide)
    (Reach.tickOk insSortBy insSortBy_spec 0 7 .readOnly (by decide)
      (Reach.put (Reach.put Reach.init)))

/-- Witness for C1 at a concrete reachable pool: two read-only members with
latencies 7 and 2; `avail = [1, 0]`, `primary = none`. -/
theorem c1_witness :
    getForRead c1pool = .ok 1 ∧
    latOf c1pool.members 1 ≤ latOf c1pool.members 0 ∧
    getForWrite c1pool = .error .noneAvailable := by
  have h := c1_get_for_read_write c1pool c1pool_reach
  have hread := h.2.1 1 [0] (by decide)
  refine ⟨hread, ?_, ?_⟩
  · exact (h.2.2.1 1 hread).2 0 (by decide)
  · exact h.2.2.2.1.mpr (by decide)

/-- C2 counterexample: after `Put`-ing two backends and a probe tick on each
reporting `READ_WRITE` (nothing prevents two mocked or split-brain backends
from both reporting the primary role), the reachable state `c2state` has two
members in state `READ_WRITE` while the primary pointer is non-null — so
"the primary pointer is non-null iff exactly one registered backend has
state ReadWrite" is false in a reachable state. -/
theorem c2_counterexample :
    Reach c2state ∧ c2state.primary = some 1 ∧
    c2state.members.map Member.state = [St.readWrite, St.readWrite] ∧
    rwCount c2state = 2 ∧
    ¬ (c2state.primary ≠ none ↔ rwCount c2state = 1) := by
  refine ⟨?_, by decide, by decide, by decide, by decide⟩
  exact Reach.tickOk insSortBy insSortBy_spec 1 2 .readWrite (by decide)
    (Reach.tickOk insSortBy insSortBy_spec 0 1 .readWrite (by decide)
      (Reach.put (Reach.put Reach.init)))

/-- C2 (amended): in every state reachable by `Put` operations and probe
ticks, whenever the primary pointer is non-null it references a registered
member whose state is `READ_WRITE`.  The converse directions of the original
claim fail (see `c2_counterexample`): the pointer can be non-null with two
`READ_WRITE` members, and null while one member is still `READ_WRITE`. -/
theorem c2_amended (p : PoolSt) (hp : Reach p) (i : Nat)
    (hi : p.primary = some i) :
    ∃ m, p.members[i]? = some m ∧ m.state = St.readWrite :=
  (reach_inv hp).2.2 i hi

/-- Witness for the amended C2 at a concrete reachable state. -/
theorem c2_witness :
    ∃ m, c2wpool.members[0]? = some m ∧ m.state = St.readWrite :=
  c2_amended c2wpool
    (Reach.tickOk insSortBy insSortBy_spec 0 1 .readWrite (by decide)
      (Reach.put Reach.init)) 0 (by decide)

/-- C3: when a probe of a `READ_WRITE` member returns an error, after that
single tick the member is `UNAVAILABLE`, it is gone from the `avail` list,
the primary pointer is nil, and `Fail()` has run exactly once on it — a
further error tick (the member now being `UNAVAILABLE`) does not call
`Fail()` again. -/
theorem c3_fail_called_once (f : (Nat → Nat) → List Nat → List Nat)
    (hf : SortSpec f) (p : PoolSt) (i lat lat2 : Nat) (m : Member)
    (hm : p.members[i]? = some m) (hrw : m.state = St.readWrite) :
    ((tick f p i none lat).members[i]?).map Member.state =
      some St.unavailable ∧
    i ∉ (tick f p i none lat).avail ∧
    (tick f p i none lat).primary = none ∧
    ((tick f p i none lat).members[i]?).map Member.fails =
      some (m.fails + 1) ∧
    ((tick f (tick f p i none lat) i none lat2).members[i]?).map Member.fails =
      some (m.fails + 1) := by
  have hi : i < p.members.length := getElem?_some_lt hm
  have hstep : tick f p i none lat =
      { members := p.members.set i
          { state := St.unavailable, lat := lat, fails := m.fails + 1 },
        avail := f
          (latOf (p.members.set i
            { state := St.unavailable, lat := lat, fails := m.fails + 1 }))
          (p.avail.filter (fun j => j ≠ i)),
        primary := none } := by
    unfold tick
    rw [hm]
    simp [tickCore, hrw]
  have hset : (p.members.set i
      { state := St.unavailable, lat := lat, fails := m.fails + 1 })[i]? =
      some { state := St.unavailable, lat := lat, fails := m.fails + 1 } :=
    List.getElem?_set_self hi
  refine ⟨?_, ?_, ?_, ?_, ?_⟩
  · rw [hstep]
    simp [hset]
  · rw [hstep]
    intro hmem
    have h1 := ((hf _ _).1.mem_iff).mp hmem
    have h2 := (List.mem_filter.mp h1).2
    simp at h2
  · rw [hstep]
  · rw [hstep]
    simp [hset]
  · rw [hstep]
    have hi2 : i < (p.members.set i
        { state := St.unavailable, lat := lat, fails := m.fails + 1 }).length := by
      rw [List.length_set]
      exact hi
    unfold tick
    simp only [hset, tickCore]
    simp [List.getElem?_set_self, List.length_set, hi2]
    exact ⟨_, List.getElem?_set_self hi, rfl⟩


/-- Witness for C3: one `READ_WRITE` member whose probe then errors twice. -/
theorem c3_witness :
    ((tick insSortBy c3pool 0 none 1).members[0]?).map Member.state =
      some St.unavailable ∧
    0 ∉ (tick insSortBy c3pool 0 none 1).avail ∧
    (tick insSortBy c3pool 0 none 1).primary = none ∧
    ((tick insSortBy c3pool 0 none 1).members[0]?).map Member.fails = some 1 ∧
    ((tick insSortBy (tick insSortBy c3pool 0 none 1) 0 none 1).members[0]?).map
      Member.fails = some 1 :=
  c3_fail_called_once insSortBy insSortBy_spec c3pool 0 1 1
    { state := St.readWrite, lat := 2, fails := 0 } (by decide) rfl

/-- C4 counterexample: the authentication phase of `handleClientConnection`
(arbiter.go lines 246-292, embedded as `authPhaseStep`) forwards a backend
`AuthenticationRequest(MD5, salt = 0x12345678)` to the frontend with its
subtype still 5 (MD5) — not rewritten to Cleartext (3) — and forwards the
frontend's `PasswordMessage` with payload `"p\0"` to the backend byte for
byte, its payload not replaced by any `"md5"`-prefixed digest.  Both
rewriting clauses of the claim are false on the code. -/
theorem c4_counterexample :
    authPhaseStep false .backend (Msg.authenticationRequest 5 [18, 52, 86, 120]) =
      (some (Side.frontend, Msg.authenticationRequest 5 [18, 52, 86, 120]),
        false) ∧
    Msg.authenticationRequest 5 [18, 52, 86, 120] ≠
      Msg.authenticationRequest 3 [18, 52, 86, 120] ∧
    authPhaseStep false .frontend (Msg.passwordMessage [112, 0]) =
      (some (Side.backend, Msg.passwordMessage [112, 0]), false) ∧
    Msg.passwordMessage [112, 0] ≠
      Msg.passwordMessage (109 :: 100 :: 53 :: [112, 0]) :=
  ⟨by decide, by decide, by decide, by decide⟩

/-- C4 (amended): in the authentication phase of `handleClientConnection`,
every backend `AuthenticationRequest` — any subtype, MD5 included, with
whatever salt — is forwarded to the frontend unmodified (only the
`authenticated` flag reacts to subtype Ok), and every frontend
`PasswordMessage` is forwarded to the backend verbatim; no MD5-to-Cleartext
rewrite and no password re-hash takes place. -/
theorem c4_amended (a : Bool) (t : Int) (salt p : Bytes) :
    authPhaseStep a .backend (Msg.authenticationRequest t salt) =
      (some (Side.frontend, Msg.authenticationRequest t salt),
        if t = 0 then true else a) ∧
    authPhaseStep a .frontend (Msg.passwordMessage p) =
      (some (Side.backend, Msg.passwordMessage p), a) :=
  ⟨rfl, rfl⟩

/-- C5 (code bug): a frame whose declared length is smaller than 4 makes the
decoder panic instead of returning `ErrProtocolViolation`: for the frontend
stream `'Q'` followed by length 3, `readMessage` executes
`make([]byte, msglen-4)` with a negative size, which panics at runtime.  The
same stream with length 4 decodes normally. -/
theorem c5_decoder_panics :
    frontendDecode [81, 0, 0, 0, 3] = DecRes.panicked ∧
    frontendDecode [81, 0, 0, 0, 4] = DecRes.ok (Msg.query []) [] :=
  ⟨by decide, by decide⟩

/-- C6 counterexample: a client that sends two consecutive `SSLRequest`
frames is answered with a second `'N'` byte and the handler then proceeds —
the startup loop's bound is simply exhausted and the (SSL-versioned) frame
is carried forward as the startup message — rather than the session failing
with `ProtocolViolation` as the claim states. -/
theorem c6_counterexample :
    startupPhase [sslRequestVersion, sslRequestVersion] =
      StartupOutcome.proceed sslRequestVersion 2 := by
  decide

/-- C6 (amended): an `SSLRequest` is answered with a single `'N'` and the
next start frame, when it is a 3.0 `Startup`, is proceeded with; but a
second `SSLRequest` is answered with another `'N'` and the handler proceeds
with it as the startup message — no `ProtocolViolation` is raised.  A plain
3.0 `Startup` proceeds with no `'N'` written. -/
theorem c6_amended :
    startupPhase [sslRequestVersion, startup30Version] =
      StartupOutcome.proceed startup30Version 1 ∧
    startupPhase [sslRequestVersion, sslRequestVersion] =
      StartupOutcome.proceed sslRequestVersion 2 ∧
    startupPhase [startup30Version] =
      StartupOutcome.proceed startup30Version 0 :=
  ⟨by decide, by decide, by decide⟩

/-- C7 counterexample: the re-sort at the end of a probe tick is
`sort.Sort`, whose contract (`SortSpec`) does not promise stability.  With
the conforming routine `revTieSortBy`, the reachable state `c7state` — two
members appended to `avail` in the order 0 then 1, both with latency 5 —
ends with `avail = [1, 0]`: equal-latency members are *not* ordered by their
insertion order into the list. -/
theorem c7_counterexample :
    SortSpec revTieSortBy ∧ Reach c7state ∧
    latOf c7state.members 0 = 5 ∧ latOf c7state.members 1 = 5 ∧
    c7state.avail = [1, 0] := by
  refine ⟨revTieSortBy_spec, ?_, by decide, by decide, by decide⟩
  exact Reach.tickOk revTieSortBy revTieSortBy_spec 1 5 .readOnly (by decide)
    (Reach.tickOk revTieSortBy revTieSortBy_spec 0 5 .readOnly (by decide)
      (Reach.put (Reach.put Reach.init)))

/-- C7 (amended): in every reachable pool state the `avail` list is sorted
non-decreasingly by the members' last observed latencies; the relative order
of equal-latency members is unspecified (`sort.Sort` is not stable). -/
theorem c7_amended (p : PoolSt) (hp : Reach p) :
    p.avail.Sorted (fun a b => latOf p.members a ≤ latOf p.members b) :=
  (reach_inv hp).2.1

theorem c7wpool_reach : Reach c7wpool :=
  Reach.tickOk insSortBy insSortBy_spec 1 2 .readOnly (by decide)
    (Reach.tickOk insSortBy insSortBy_spec 0 9 .readOnly (by decide)
      (Reach.put (Reach.put Reach.init)))

/-- Witness for the amended C7 at a concrete reachable state with two
available members. -/
theorem c7_witness :
    c7wpool.avail.Sorted
      (fun a b => latOf c7wpool.members a ≤ latOf c7wpool.members b) :=
  c7_amended c7wpool c7wpool_reach

/-- C8 (code bug): the universal round-trip law fails because
`CopyFail.EncodeTo` emits the tag `'P'` (80) — `Parse`'s tag — instead of
`'f'`, so its encoding decodes through the frontend vocabulary as a `Parse`
message; the concrete `BackendKeyData` encoding of the claim is correct:
pid 42 and secret `0xDEADBEEF` (the `int32` value -559038737) encode to tag
`'K'`, big-endian length 12, then the two big-endian words. -/
theorem c8_roundtrip_bug :
    encodeMsg (Msg.copyFail []) = Except.ok [80, 0, 0, 0, 4] ∧
    frontendDecode [80, 0, 0, 0, 4] = DecRes.ok (Msg.parse []) [] ∧
    Msg.parse [] ≠ Msg.copyFail [] ∧
    encodeMsg (Msg.backendKeyData 42 (-559038737)) =
      Except.ok [75, 0, 0, 0, 12, 0, 0, 0, 42, 222, 173, 190, 239] :=
  ⟨rfl, by decide, by decide, rfl⟩

/-- C9 counterexample: the first `Close` of a fresh framed connection
returns after the writer task receives on `cw` and closes it; a second
`Close` then executes `c.cw <- true` on a closed channel, which panics —
`Close` on an already-closed connection is not a no-op. -/
theorem c9_counterexample :
    connClose connInit = CloseOutcome.ok connClosed ∧
    connClose connClosed = CloseOutcome.panicked :=
  ⟨by decide, by decide⟩

/-- C9 (amended): `Close` on a fresh connection succeeds (closing `cw` and
stopping the writer); `Close` on an already-closed connection panics with a
send on a closed channel; and `Close` on a connection whose writer already
exited through its error path blocks forever on the unbuffered send. -/
theorem c9_amended :
    connClose connInit = CloseOutcome.ok connClosed ∧
    connClose connClosed = CloseOutcome.panicked ∧
    connClose connWriterGone = CloseOutcome.blocked :=
  ⟨by decide, by decide, by decide⟩

/-- C10: in the authentication-phase select loop, a frontend message that is
not a `PasswordMessage`, and a backend message that is neither an
`AuthenticationRequest` nor an `ErrorResponse`, is silently discarded: it is
forwarded to neither peer, no error is raised, and the `authenticated` flag
is unchanged. -/
theorem c10_auth_phase_discards (a : Bool) (m : Msg) :
    (m.isPasswordMessage = false → authPhaseStep a .frontend m = (none, a)) ∧
    (m.isAuthenticationRequest = false → m.isErrorResponse = false →
      authPhaseStep a .backend m = (none, a)) := by
  cases m <;>
    simp [authPhaseStep, Msg.isPasswordMessage, Msg.isAuthenticationRequest,
      Msg.isErrorResponse]

/-- Witness for C10: a `Query` from the frontend and a `DataRow` from the
backend are both discarded. -/
theorem c10_witness :
    authPhaseStep false .frontend (Msg.query [1]) = (none, false) ∧
    authPhaseStep false .backend (Msg.dataRow [2]) = (none, false) :=
  ⟨(c10_auth_phase_discards false (Msg.query [1])).1 rfl,
   (c10_auth_phase_discards false (Msg.dataRow [2])).2 rfl rfl⟩

end Arbiter
